import Mathlib

/-
Verification of the live audio capture and streaming pipeline of the
jury-selection repository (frontend AudioRecorder component and its
transcript consumers).

The pure audio functions (resample, encodeWAV, floatTo16BitPCM) are embedded
over the rationals: for the sample values and rates involved, every JavaScript
float operation performed by the source (clamping, scaling by 32768 or 32767,
linear interpolation coefficients) is modelled exactly by rational arithmetic.
Bytes are modelled as natural numbers below 256, binary buffers as lists of
bytes in offset order (the source writes a DataView at strictly increasing,
contiguous offsets, so concatenation is a faithful model).

The stateful recorder (pause flag, capture buffer, flush timer, duration
timer, audio WebSocket) is embedded as an explicit state machine: one state
record mirroring the refs of the component and one step function per
event handler, with event traces folded over the step function.
-/

/-- JavaScript Math.round: rounds half toward positive infinity. -/
def jsRound (q : ℚ) : ℤ := ⌊q + 1/2⌋

/-- ECMAScript integer conversion used by DataView.setInt16 (ToInt16 via
ToIntegerOrInfinity): truncation toward zero. -/
def jsTrunc (q : ℚ) : ℤ := if q < 0 then -⌊-q⌋ else ⌊q⌋

/-- Little-endian bytes of a 16-bit unsigned write (DataView.setUint16 wraps
modulo 2 to the 16). -/
def u16le (v : ℕ) : List ℕ := [v % 256, v / 256 % 256]

/-- Little-endian bytes of a 32-bit unsigned write (DataView.setUint32 wraps
modulo 2 to the 32; the per-byte reductions below realise that wrap). -/
def u32le (v : ℕ) : List ℕ :=
  [v % 256, v / 256 % 256, v / 256 ^ 2 % 256, v / 256 ^ 3 % 256]

/-- Little-endian bytes of a 16-bit signed write (DataView.setInt16:
two-s complement, wraps modulo 2 to the 16). -/
def int16le (v : ℤ) : List ℕ := u16le (v % 65536).toNat

/-- Embedding of writeString from AudioRecorder.tsx: writes the character
codes of the string at consecutive offsets. -/
def writeString (s : String) : List ℕ := s.data.map Char.toNat

/-- Clamping step of floatTo16BitPCM: Math.max(-1, Math.min(1, s)). -/
def clampSample (s : ℚ) : ℚ := max (-1) (min 1 s)

/-- Signed 16-bit PCM value produced by floatTo16BitPCM for one sample:
clamp to [-1, 1], scale negatives by 0x8000 and non-negatives by 0x7FFF,
then convert with setInt16 (truncation toward zero). -/
def pcm16OfSample (s : ℚ) : ℤ :=
  let c := clampSample s
  jsTrunc (if c < 0 then c * 32768 else c * 32767)

/-- Embedding of floatTo16BitPCM from AudioRecorder.tsx: each sample becomes
two little-endian bytes of its signed 16-bit PCM value, in input order. -/
def floatTo16BitPCM : List ℚ → List ℕ
  | [] => []
  | s :: rest => int16le (pcm16OfSample s) ++ floatTo16BitPCM rest

/-- Embedding of encodeWAV from AudioRecorder.tsx: 44-byte RIFF/WAVE header
followed by the 16-bit PCM data, all fields at the offsets of the source
(0 RIFF, 4 overall size, 8 WAVE, 12 fmt chunk id, 16 subchunk size, 20 audio
format, 22 channels, 24 sample rate, 28 byte rate, 32 block align, 34 bits
per sample, 36 data chunk id, 40 data size, 44 samples). -/
def encodeWAV (samples : List ℚ) (sampleRate : ℕ) : List ℕ :=
  writeString "RIFF" ++ u32le (36 + samples.length * 2) ++ writeString "WAVE" ++
  writeString "fmt " ++ u32le 16 ++ u16le 1 ++ u16le 1 ++ u32le sampleRate ++
  u32le (sampleRate * 2) ++ u16le 2 ++ u16le 16 ++
  writeString "data" ++ u32le (samples.length * 2) ++ floatTo16BitPCM samples

/-- Value of one output sample of resample from AudioRecorder.tsx, for
ratio r = sourceSampleRate / targetSampleRate and output index i: linear
interpolation between the samples at the floor and (clamped) ceiling of the
fractional source position i * r. Out-of-range reads default to 0; the
in-bounds lemmas below show the defaults are never used for positive rates. -/
def resampleAt (samples : List ℚ) (r : ℚ) (i : ℕ) : ℚ :=
  let srcIndex : ℚ := (i : ℚ) * r
  let srcIndexFloor : ℤ := ⌊srcIndex⌋
  let srcIndexCeil : ℤ := min (srcIndexFloor + 1) ((samples.length : ℤ) - 1)
  let frac : ℚ := srcIndex - (srcIndexFloor : ℚ)
  samples.getD srcIndexFloor.toNat 0 * (1 - frac) +
    samples.getD srcIndexCeil.toNat 0 * frac

/-- Embedding of resample from AudioRecorder.tsx: identity fast path when the
rates are equal, otherwise Math.round(length / ratio) output samples obtained
by linear interpolation. -/
def resample (samples : List ℚ) (sourceSampleRate targetSampleRate : ℚ) :
    List ℚ :=
  if sourceSampleRate = targetSampleRate then samples
  else
    let r := sourceSampleRate / targetSampleRate
    let newLength := (jsRound ((samples.length : ℚ) / r)).toNat
    (List.range newLength).map (resampleAt samples r)

/-- Transcript fragment as defined in AudioRecorder.tsx (TranscriptSegment). -/
structure TranscriptSegment where
  segment_id : String
  speaker_label : String
  content : String
  start_time : ℚ
  end_time : ℚ
  confidence : ℚ
deriving DecidableEq

/-- Embedding of handleTranscriptUpdate from the App component: the new
segment is appended to the end of the current list of live segments, which is
the exact list the LiveTranscript view renders in order. -/
def handleTranscriptUpdate (prev : List TranscriptSegment)
    (segment : TranscriptSegment) : List TranscriptSegment :=
  prev ++ [segment]

/-- Snapshot handed to the transcript view after a sequence of fragment
arrivals, starting from the empty list set at recording start. -/
def liveSnapshot (arrivals : List TranscriptSegment) : List TranscriptSegment :=
  arrivals.foldl handleTranscriptUpdate []

/-- Concatenation of the buffered sample arrays in push order, as performed by
the combining loop of sendBufferedAudio. -/
def concatBuffers : List (List ℚ) → List ℚ
  | [] => []
  | b :: rest => b ++ concatBuffers rest

/-- State of one recording session of the AudioRecorder component, from the
point where the audio WebSocket onopen handler has installed the processor
callback and the timers. Each field mirrors one ref or state variable of the
component; sentChunks records the encoded WAV frames passed to ws.send on the
audio channel, in send order. -/
structure RecorderState where
  isRecording : Bool
  isPaused : Bool
  isPausedRef : Bool
  duration : ℕ
  durationTimerActive : Bool
  bufferTimerActive : Bool
  processorActive : Bool
  wsOpen : Bool
  transcriptOpen : Bool
  endSent : Bool
  nativeRate : ℚ
  audioBuffer : List (List ℚ)
  sentChunks : List (List ℕ)
deriving DecidableEq

/-- Events of the single-threaded event loop driving one recording session.
There is no event that reopens the audio WebSocket: the component assigns the
audio socket ref exactly once per recording, and a WebSocket readyState never
returns to OPEN after leaving it. -/
inductive RecEvent where
  | audioProcess (samples : List ℚ)
  | flushTick
  | durationTick
  | togglePause
  | audioWsClose
  | stopRecording
deriving DecidableEq

/-- Embedding of sendBufferedAudio: early return when the audio socket is not
open or the buffer is empty; otherwise combine the buffered arrays, clear the
buffer, resample from the native rate to 16000 Hz, encode as WAV and send. -/
def flushBuffered (s : RecorderState) : RecorderState :=
  if ¬ s.wsOpen ∨ s.audioBuffer = [] then s
  else
    let combined := concatBuffers s.audioBuffer
    let resampled := resample combined s.nativeRate 16000
    { s with audioBuffer := [],
             sentChunks := s.sentChunks ++ [encodeWAV resampled 16000] }

/-- Step function of the recorder state machine; each branch mirrors the
corresponding handler of AudioRecorder.tsx: the onaudioprocess callback
(returns immediately when isPausedRef is set, otherwise pushes the cloned
samples), the 1-second buffer interval (sendBufferedAudio), the 1-second
duration interval (installed only while unpaused), togglePause (toggles the
pause flag and clears or reinstalls the duration interval), the audio socket
close event, and stopRecording (flush, tear everything down). -/
def recStep (s : RecorderState) : RecEvent → RecorderState
  | .audioProcess samples =>
      if ¬ s.processorActive then s
      else if s.isPausedRef then s
      else { s with audioBuffer := s.audioBuffer ++ [samples] }
  | .flushTick => if s.bufferTimerActive then flushBuffered s else s
  | .durationTick =>
      if s.durationTimerActive then { s with duration := s.duration + 1 } else s
  | .togglePause =>
      if s.isPaused then
        { s with isPausedRef := false, durationTimerActive := true,
                 isPaused := false }
      else
        { s with isPausedRef := true, durationTimerActive := false,
                 isPaused := true }
  | .audioWsClose => { s with wsOpen := false }
  | .stopRecording =>
      let s1 := flushBuffered s
      { s1 with processorActive := false, bufferTimerActive := false,
                audioBuffer := [], endSent := s1.endSent ∨ s1.wsOpen,
                wsOpen := false, transcriptOpen := false,
                durationTimerActive := false, isRecording := false,
                isPaused := false, isPausedRef := false }

/-- Folding a trace of events over the step function. -/
def runRec (s : RecorderState) (tr : List RecEvent) : RecorderState :=
  tr.foldl recStep s

/-- State of a fresh recording session right after the audio WebSocket onopen
handler ran: socket open, processor and both timers installed, unpaused,
empty buffer, duration 0. -/
def initRecorder (nativeRate : ℚ) : RecorderState :=
  { isRecording := true, isPaused := false, isPausedRef := false,
    duration := 0, durationTimerActive := true, bufferTimerActive := true,
    processorActive := true, wsOpen := true, transcriptOpen := true,
    endSent := false, nativeRate := nativeRate, audioBuffer := [],
    sentChunks := [] }

/-- Reachability of a recorder state within one recording session. -/
def ReachableRec (s : RecorderState) : Prop :=
  ∃ r tr, runRec (initRecorder r) tr = s

/-- State relevant to the transcript reconnect logic. isRecordingState is the
current value of the React isRecording state; capturedIsRecording is the value
of isRecording captured by the onclose closure of the currently installed
transcript WebSocket, fixed when connectTranscriptWebSocket ran (JavaScript
closures capture the binding of the render that created the callback, and the
handlers of an existing socket are never re-assigned on re-render). -/
structure TranscriptConnState where
  isRecordingState : Bool
  capturedIsRecording : Bool
  socketLive : Bool
  reconnectsScheduled : ℕ
deriving DecidableEq

/-- Events of the transcript connection lifecycle during session start:
connectTranscript models a call to connectTranscriptWebSocket (which installs
an onclose handler capturing the isRecording value current at that call);
audioOpen models the audio socket onopen handler running setIsRecording(true);
transcriptClose models the transcript socket onclose event, which schedules a
reconnect (setTimeout of 1 second) only if the captured isRecording is true. -/
inductive TcEvent where
  | connectTranscript
  | audioOpen
  | transcriptClose
deriving DecidableEq

/-- Step function of the transcript reconnect model, mirroring
connectTranscriptWebSocket and the startRecording sequencing of
AudioRecorder.tsx. -/
def tcStep (s : TranscriptConnState) : TcEvent → TranscriptConnState
  | .connectTranscript =>
      { s with socketLive := true, capturedIsRecording := s.isRecordingState }
  | .audioOpen => { s with isRecordingState := true }
  | .transcriptClose =>
      if s.capturedIsRecording then
        { s with socketLive := false,
                 reconnectsScheduled := s.reconnectsScheduled + 1 }
      else { s with socketLive := false }

/-- State before startRecording runs: not recording, no socket. -/
def tcInit : TranscriptConnState :=
  { isRecordingState := false, capturedIsRecording := false,
    socketLive := false, reconnectsScheduled := 0 }

/-- Event order of the source during a start followed by a transcript channel
loss: startRecording calls connectTranscriptWebSocket synchronously (before
any socket event can fire), the audio socket onopen then sets isRecording to
true, and later the transcript socket closes while recording is in progress. -/
def startThenClose : List TcEvent :=
  [.connectTranscript, .audioOpen, .transcriptClose]

/-- Folding a trace of transcript connection events. -/
def runTc (s : TranscriptConnState) (tr : List TcEvent) : TranscriptConnState :=
  tr.foldl tcStep s

/-- Observable steps performed by stopRecording, in program order. -/
inductive StopAction where
  | flushChunk
  | disconnectProcessor
  | disconnectSource
  | clearBufferTimer
  | clearAudioBuffer
  | sendEndMessage
  | closeAudioChannel
  | closeTranscriptChannel
  | releaseCaptureDevice
  | closeAudioContext
  | clearDurationTimer
  | clearLevelTimer
  | enterClosed
deriving DecidableEq

/-- Embedding of the statement order of stopRecording in AudioRecorder.tsx,
given whether the audio socket is open and whether the capture buffer is
non-empty when stop runs: sendBufferedAudio first (which sends a final chunk
exactly when the socket is open and the buffer non-empty), then processor and
source disconnect, buffer timer and buffer clearing, the end-of-stream control
message (only if the socket is open) followed by the audio socket close, the
transcript socket close, stopping the media tracks, closing the audio context,
clearing the remaining timers, and finally the state updates that leave the
component in its terminal non-recording state. -/
def stopRecordingActions (wsOpen bufNonempty : Bool) : List StopAction :=
  (if wsOpen ∧ bufNonempty then [.flushChunk] else []) ++
  [.disconnectProcessor, .disconnectSource, .clearBufferTimer,
   .clearAudioBuffer] ++
  (if wsOpen then [.sendEndMessage] else []) ++
  [.closeAudioChannel, .closeTranscriptChannel, .releaseCaptureDevice,
   .closeAudioContext, .clearDurationTimer, .clearLevelTimer, .enterClosed]

/-- Modelled from the spec: the step order asserted by the claim for C8 (stop
accepting buffer input, then flush, then the end-of-stream message, then close
the audio channel, then close the transcript channel, then release the capture
device, and only then reach the terminal state). -/
def claimedStopOrder (acts : List StopAction) : Prop :=
  acts.indexOf .disconnectProcessor < acts.indexOf .flushChunk ∧
  acts.indexOf .flushChunk < acts.indexOf .sendEndMessage ∧
  acts.indexOf .sendEndMessage < acts.indexOf .closeAudioChannel ∧
  acts.indexOf .closeAudioChannel < acts.indexOf .closeTranscriptChannel ∧
  acts.indexOf .closeTranscriptChannel < acts.indexOf .releaseCaptureDevice ∧
  acts.indexOf .releaseCaptureDevice < acts.indexOf .enterClosed

/-- Modelled from the spec: the per-sample conversion asserted by the claim
for C2, which rounds the scaled value instead of truncating it. -/
def pcm16Claimed (s : ℚ) : ℤ :=
  let c := clampSample s
  jsRound (if c < 0 then c * 32768 else c * 32767)

theorem writeString_RIFF : writeString "RIFF" = [82, 73, 70, 70] := rfl

theorem writeString_WAVE : writeString "WAVE" = [87, 65, 86, 69] := rfl

theorem writeString_fmt : writeString "fmt " = [102, 109, 116, 32] := rfl

theorem writeString_data : writeString "data" = [100, 97, 116, 97] := rfl

theorem floatTo16BitPCM_length (samples : List ℚ) :
    (floatTo16BitPCM samples).length = 2 * samples.length := by
  induction samples with
  | nil => rfl
  | cons s rest ih =>
      simp [floatTo16BitPCM, int16le, u16le, ih]
      ring

set_option maxHeartbeats 2000000 in
/-- C1: for every samples array of length N and every sampleRate, encodeWAV
returns a buffer of exactly 44 + 2N bytes whose little-endian header fields
are: bytes 0 to 3 the RIFF tag, bytes 4 to 7 equal to 36 + 2N, bytes 8 to 11
the WAVE tag, bytes 16 to 19 equal to 16, bytes 20 to 21 equal to 1 (PCM),
bytes 22 to 23 equal to 1 (mono), bytes 24 to 27 equal to sampleRate, bytes
28 to 31 equal to sampleRate times 2, bytes 32 to 33 equal to 2, bytes 34 to
35 equal to 16, bytes 36 to 39 the data tag, and bytes 40 to 43 equal to 2N;
in particular encoding 16000 samples at 16000 Hz yields exactly 32044 bytes. -/
theorem encodeWAV_header (samples : List ℚ) (sampleRate : ℕ) :
    (encodeWAV samples sampleRate).length = 44 + 2 * samples.length ∧
    (encodeWAV samples sampleRate).take 4 = writeString "RIFF" ∧
    ((encodeWAV samples sampleRate).drop 4).take 4 =
      u32le (36 + 2 * samples.length) ∧
    ((encodeWAV samples sampleRate).drop 8).take 4 = writeString "WAVE" ∧
    ((encodeWAV samples sampleRate).drop 16).take 4 = u32le 16 ∧
    ((encodeWAV samples sampleRate).drop 20).take 2 = u16le 1 ∧
    ((encodeWAV samples sampleRate).drop 22).take 2 = u16le 1 ∧
    ((encodeWAV samples sampleRate).drop 24).take 4 = u32le sampleRate ∧
    ((encodeWAV samples sampleRate).drop 28).take 4 =
      u32le (sampleRate * 2) ∧
    ((encodeWAV samples sampleRate).drop 32).take 2 = u16le 2 ∧
    ((encodeWAV samples sampleRate).drop 34).take 2 = u16le 16 ∧
    ((encodeWAV samples sampleRate).drop 36).take 4 = writeString "data" ∧
    ((encodeWAV samples sampleRate).drop 40).take 4 =
      u32le (2 * samples.length) ∧
    (encodeWAV (List.replicate 16000 0) 16000).length = 32044 := by
  have hlen : ∀ (s : List ℚ) (r : ℕ),
      (encodeWAV s r).length = 44 + 2 * s.length := by
    intro s r
    simp [encodeWAV, writeString_RIFF, writeString_WAVE, writeString_fmt,
      writeString_data, u32le, u16le, floatTo16BitPCM_length]
    ring
  refine ⟨hlen samples sampleRate, rfl, ?_, rfl, rfl, rfl, rfl, rfl, rfl,
    rfl, rfl, rfl, ?_, ?_⟩
  · unfold encodeWAV
    rw [Nat.mul_comm samples.length 2]
    rfl
  · unfold encodeWAV
    rw [Nat.mul_comm samples.length 2]
    rfl
  · rw [hlen, List.length_replicate]

theorem jsTrunc_of_nonneg {q : ℚ} (h : 0 ≤ q) : jsTrunc q = ⌊q⌋ := by
  rw [jsTrunc, if_neg (not_lt.mpr h)]

theorem jsTrunc_of_neg {q : ℚ} (h : q < 0) : jsTrunc q = -⌊-q⌋ := by
  rw [jsTrunc, if_pos h]

theorem jsTrunc_nonneg {q : ℚ} (h : 0 ≤ q) : 0 ≤ jsTrunc q := by
  rw [jsTrunc_of_nonneg h]
  exact Int.floor_nonneg.mpr h

theorem jsTrunc_nonpos {q : ℚ} (h : q ≤ 0) : jsTrunc q ≤ 0 := by
  rcases lt_or_eq_of_le h with h1 | h1
  · rw [jsTrunc_of_neg h1, neg_nonpos]
    exact Int.floor_nonneg.mpr (by linarith)
  · subst h1
    simp [jsTrunc]

theorem jsTrunc_mono {a b : ℚ} (h : a ≤ b) : jsTrunc a ≤ jsTrunc b := by
  rcases lt_or_le a 0 with ha | ha
  · rcases lt_or_le b 0 with hb | hb
    · rw [jsTrunc_of_neg ha, jsTrunc_of_neg hb, neg_le_neg_iff]
      exact Int.floor_le_floor (by linarith)
    · exact le_trans (jsTrunc_nonpos (le_of_lt ha)) (jsTrunc_nonneg hb)
  · rw [jsTrunc_of_nonneg ha, jsTrunc_of_nonneg (le_trans ha h)]
    exact Int.floor_le_floor h

theorem jsTrunc_intCast (n : ℤ) : jsTrunc (n : ℚ) = n := by
  rcases lt_or_le (n : ℚ) 0 with h | h
  · rw [jsTrunc_of_neg h, ← Int.cast_neg, Int.floor_intCast, neg_neg]
  · rw [jsTrunc_of_nonneg h, Int.floor_intCast]

theorem clampSample_mem (s : ℚ) :
    -1 ≤ clampSample s ∧ clampSample s ≤ 1 := by
  constructor
  · exact le_max_left _ _
  · rw [clampSample, max_le_iff]
    exact ⟨by norm_num, min_le_left _ _⟩

theorem clampSample_mono {a b : ℚ} (h : a ≤ b) :
    clampSample a ≤ clampSample b :=
  max_le_max (le_refl _) (min_le_min (le_refl _) h)

theorem clampSample_of_one_le {s : ℚ} (h : 1 ≤ s) : clampSample s = 1 := by
  rw [clampSample, min_eq_left h]
  exact max_eq_right (by norm_num)

theorem clampSample_of_le_neg_one {s : ℚ} (h : s ≤ -1) :
    clampSample s = -1 := by
  rw [clampSample, min_eq_right (by linarith)]
  exact max_eq_left (by linarith)

theorem pcm16OfSample_eq (s : ℚ) :
    pcm16OfSample s =
      jsTrunc (if clampSample s < 0 then clampSample s * 32768
               else clampSample s * 32767) := rfl

/-- C2 counterexample: the claim says the scaled sample value is rounded, but
the source converts with DataView.setInt16, which truncates toward zero; on
the exactly representable input 0.5 the encoder writes PCM value 16383 while
the claimed rounding conversion yields 16384. -/
theorem pcm16_rounding_counterexample :
    pcm16OfSample (1/2) = 16383 ∧ pcm16Claimed (1/2) = 16384 := by
  have hc : clampSample (1/2) = 1/2 := by
    rw [clampSample, min_eq_right (by norm_num)]
    exact max_eq_right (by norm_num)
  have hlt : ¬ ((1:ℚ)/2 < 0) := by norm_num
  constructor
  · rw [pcm16OfSample_eq, hc, if_neg hlt,
      jsTrunc_of_nonneg (by norm_num : (0:ℚ) ≤ 1/2 * 32767)]
    norm_num
  · rw [pcm16Claimed]
    simp only [hc, if_neg hlt]
    rw [jsRound]
    norm_num

theorem pcm16_of_nonneg {s : ℚ} (h : 0 ≤ s) :
    pcm16OfSample s = ⌊min 1 s * 32767⌋ := by
  have hmin : 0 ≤ min 1 s := le_min (by norm_num) h
  have hsc : (0:ℚ) ≤ min 1 s * 32767 := mul_nonneg hmin (by norm_num)
  have hc : clampSample s = min 1 s := max_eq_right (by linarith)
  rw [pcm16OfSample_eq, hc, if_neg (not_lt.mpr hmin), jsTrunc_of_nonneg hsc]

theorem pcm16_of_neg {s : ℚ} (h : s < 0) :
    pcm16OfSample s = -⌊-(max (-1) s * 32768)⌋ := by
  have hc : clampSample s = max (-1) s := by
    rw [clampSample, min_eq_right (by linarith)]
  have hm : max (-1) s < 0 := max_lt (by norm_num) h
  have hsc : max (-1) s * 32768 < 0 := mul_neg_of_neg_of_pos hm (by norm_num)
  rw [pcm16OfSample_eq, hc, if_pos hm, jsTrunc_of_neg hsc]

theorem pcm16_sat_high {s : ℚ} (h : 1 ≤ s) : pcm16OfSample s = 32767 := by
  rw [pcm16_of_nonneg (by linarith), min_eq_left h, one_mul]
  norm_num

theorem pcm16_sat_low {s : ℚ} (h : s ≤ -1) : pcm16OfSample s = -32768 := by
  rw [pcm16_of_neg (by linarith), max_eq_left (by linarith)]
  norm_num

/-- C2 (amended): each float sample is clamped to [-1, 1]; a clamped negative
value is scaled by 32768 and a clamped non-negative value by 32767, then
truncated toward zero (the behaviour of DataView.setInt16, written here as
floor for non-negative products and negated floor of the negation for
negative products) and written as a signed 16-bit little-endian integer;
values whose magnitude exceeds 1.0 saturate rather than wrap, so input 1.5
encodes as 32767, input -2.0 encodes as -32768, and input 0.0 encodes as 0. -/
theorem pcm16_conversion (s : ℚ) :
    (0 ≤ s → pcm16OfSample s = ⌊min 1 s * 32767⌋) ∧
    (s < 0 → pcm16OfSample s = -⌊-(max (-1) s * 32768)⌋) ∧
    (1 ≤ s → pcm16OfSample s = 32767) ∧
    (s ≤ -1 → pcm16OfSample s = -32768) ∧
    pcm16OfSample (3/2) = 32767 ∧ pcm16OfSample (-2) = -32768 ∧
    pcm16OfSample 0 = 0 ∧
    floatTo16BitPCM [s] = int16le (pcm16OfSample s) := by
  refine ⟨fun h => pcm16_of_nonneg h, fun h => pcm16_of_neg h,
    fun h => pcm16_sat_high h, fun h => pcm16_sat_low h,
    pcm16_sat_high (by norm_num), pcm16_sat_low (by norm_num), ?_, ?_⟩
  · rw [pcm16_of_nonneg le_rfl]
    norm_num
  · simp [floatTo16BitPCM]

/-- C2 witness: the saturation part of pcm16_conversion applied at the
concrete input 2. -/
theorem pcm16_conversion_witness :
    (1:ℚ) ≤ 2 ∧ pcm16OfSample 2 = 32767 :=
  ⟨one_le_two, (pcm16_conversion 2).2.2.1 one_le_two⟩

theorem pcm16_bounds (s : ℚ) :
    -32768 ≤ pcm16OfSample s ∧ pcm16OfSample s ≤ 32767 := by
  obtain ⟨hl, hr⟩ := clampSample_mem s
  rw [pcm16OfSample_eq]
  split_ifs with h
  · constructor
    · rw [show (-32768:ℤ) = jsTrunc ((-32768:ℤ):ℚ) from (jsTrunc_intCast _).symm]
      apply jsTrunc_mono
      push_cast
      nlinarith
    · exact le_trans (jsTrunc_nonpos (by nlinarith)) (by norm_num)
  · constructor
    · exact le_trans (by norm_num) (jsTrunc_nonneg (by nlinarith [not_lt.mp h]))
    · rw [show (32767:ℤ) = jsTrunc ((32767:ℤ):ℚ) from (jsTrunc_intCast _).symm]
      apply jsTrunc_mono
      push_cast
      nlinarith

/-- C10: the float-to-PCM conversion is monotone and bounded: if s1 is at
most s2 then the 16-bit value written for s1 is at most the one written for
s2, and every written value lies in [-32768, 32767]. -/
theorem pcm16_monotone_bounded (s1 s2 : ℚ) (h : s1 ≤ s2) :
    pcm16OfSample s1 ≤ pcm16OfSample s2 ∧
    ∀ s : ℚ, -32768 ≤ pcm16OfSample s ∧ pcm16OfSample s ≤ 32767 := by
  refine ⟨?_, pcm16_bounds⟩
  have hc : clampSample s1 ≤ clampSample s2 := clampSample_mono h
  rw [pcm16OfSample_eq, pcm16OfSample_eq]
  split_ifs with h1 h2 h2
  · exact jsTrunc_mono (by nlinarith)
  · exact le_trans (jsTrunc_nonpos (by nlinarith))
      (jsTrunc_nonneg (by nlinarith [not_lt.mp h2]))
  · exact absurd (lt_of_le_of_lt hc h2) h1
  · exact jsTrunc_mono (by nlinarith [not_lt.mp h1, not_lt.mp h2])

/-- C10 witness: monotonicity of pcm16_monotone_bounded applied at the
concrete pair 0 and 1. -/
theorem pcm16_monotone_witness :
    (0:ℚ) ≤ 1 ∧ pcm16OfSample 0 ≤ pcm16OfSample 1 :=
  ⟨zero_le_one, (pcm16_monotone_bounded 0 1 zero_le_one).1⟩

theorem jsRound_natCast (n : ℕ) : jsRound (n : ℚ) = n := by
  rw [jsRound, Int.floor_nat_add]
  norm_num

theorem resample_eq_of_ne (samples : List ℚ) (Rs Rt : ℚ) (h : Rs ≠ Rt) :
    resample samples Rs Rt =
      (List.range (jsRound ((samples.length : ℚ) / (Rs / Rt))).toNat).map
        (resampleAt samples (Rs / Rt)) := by
  rw [resample, if_neg h]

/-- C3: for every samples array of length N at source rate Rs and every
target rate Rt (both positive), the resampler returns an array of length
round(N times Rt over Rs), and when Rs equals Rt it returns the input
unchanged. -/
theorem resample_length_identity (samples : List ℚ) (Rs Rt : ℚ)
    (hs : 0 < Rs) (ht : 0 < Rt) :
    (resample samples Rs Rt).length =
      (jsRound ((samples.length : ℚ) * Rt / Rs)).toNat ∧
    (Rs = Rt → resample samples Rs Rt = samples) := by
  constructor
  · by_cases h : Rs = Rt
    · subst h
      rw [resample, if_pos rfl,
        show (samples.length : ℚ) * Rs / Rs = (samples.length : ℚ) by
          field_simp,
        jsRound_natCast]
      omega
    · rw [resample_eq_of_ne _ _ _ h, List.length_map, List.length_range,
        div_div_eq_mul_div]
  · intro h
    rw [resample, if_pos h]

/-- C3 witness: resample_length_identity applied at the concrete input
[0, 1] with source rate 1 and target rate 2. -/
theorem resample_length_witness :
    (0:ℚ) < 1 ∧ (0:ℚ) < 2 ∧
      ((resample [0, 1] 1 2).length =
        (jsRound ((([0, 1] : List ℚ).length : ℚ) * 2 / 1)).toNat ∧
       ((1:ℚ) = 2 → resample [0, 1] 1 2 = [0, 1])) :=
  ⟨one_pos, two_pos, resample_length_identity [0, 1] 1 2 one_pos two_pos⟩

theorem samplesGetD_bounds {samples : List ℚ}
    (hb : ∀ x ∈ samples, -1 ≤ x ∧ x ≤ 1) (n : ℕ) :
    -1 ≤ samples.getD n 0 ∧ samples.getD n 0 ≤ 1 := by
  by_cases h : n < samples.length
  · rw [List.getD_eq_getElem samples 0 h]
    exact hb _ (List.getElem_mem h)
  · rw [List.getD_eq_default samples 0 (le_of_not_lt h)]
    norm_num

theorem resampleAt_eq (samples : List ℚ) (r : ℚ) (i : ℕ) :
    resampleAt samples r i =
      samples.getD (⌊(i : ℚ) * r⌋).toNat 0 *
          (1 - Int.fract ((i : ℚ) * r)) +
        samples.getD (min (⌊(i : ℚ) * r⌋ + 1)
            ((samples.length : ℤ) - 1)).toNat 0 *
          Int.fract ((i : ℚ) * r) := rfl

theorem resampleAt_bounds (samples : List ℚ) (r : ℚ) (i : ℕ)
    (hb : ∀ x ∈ samples, -1 ≤ x ∧ x ≤ 1) :
    -1 ≤ resampleAt samples r i ∧ resampleAt samples r i ≤ 1 := by
  rw [resampleAt_eq]
  have ht0 : 0 ≤ Int.fract ((i : ℚ) * r) := Int.fract_nonneg _
  have ht1 : Int.fract ((i : ℚ) * r) < 1 := Int.fract_lt_one _
  obtain ⟨ha1, ha2⟩ := samplesGetD_bounds hb (⌊(i : ℚ) * r⌋).toNat
  obtain ⟨hc1, hc2⟩ := samplesGetD_bounds hb
    (min (⌊(i : ℚ) * r⌋ + 1) ((samples.length : ℤ) - 1)).toNat
  constructor <;> nlinarith

theorem resample_index_lt {N : ℕ} {r : ℚ} (hr : 0 < r) {i : ℕ}
    (hi : i < (jsRound ((N : ℚ) / r)).toNat) :
    (i : ℚ) * r < N := by
  have h1 : (i : ℤ) + 1 ≤ ⌊(N : ℚ) / r + 1/2⌋ := by
    rw [jsRound] at hi
    omega
  have h2 : (((i : ℤ) + 1 : ℤ) : ℚ) ≤ (N : ℚ) / r + 1/2 := Int.le_floor.mp h1
  have h3 : (i : ℚ) ≤ (N : ℚ) / r - 1/2 := by
    push_cast at h2
    linarith
  have h4 : (i : ℚ) * r ≤ ((N : ℚ) / r - 1/2) * r :=
    mul_le_mul_of_nonneg_right h3 (le_of_lt hr)
  have h5 : ((N : ℚ) / r - 1/2) * r = (N : ℚ) - r / 2 := by
    field_simp
    ring
  nlinarith

theorem floor_srcIndex_lt {N : ℕ} {r : ℚ} (hr : 0 < r) {i : ℕ}
    (hi : i < (jsRound ((N : ℚ) / r)).toNat) :
    ⌊(i : ℚ) * r⌋ < (N : ℤ) ∧ 0 ≤ ⌊(i : ℚ) * r⌋ := by
  constructor
  · rw [Int.floor_lt]
    push_cast
    exact resample_index_lt hr hi
  · exact Int.floor_nonneg.mpr (by positivity)

/-- C9: for every input samples array whose values all lie in [-1, 1] and any
positive source and target rates, every output sample of the resampler also
lies in [-1, 1]; moreover for every output index the floor source index read
by the interpolation is inside the input array and the interpolation fraction
lies in [0, 1), so each output is a convex combination of two input samples
and no interpolation overshoot beyond the input range occurs. -/
theorem resample_output_bounded (samples : List ℚ) (Rs Rt : ℚ)
    (hs : 0 < Rs) (ht : 0 < Rt)
    (hb : ∀ x ∈ samples, -1 ≤ x ∧ x ≤ 1) :
    (∀ y ∈ resample samples Rs Rt, -1 ≤ y ∧ y ≤ 1) ∧
    (∀ i : ℕ, i < (resample samples Rs Rt).length →
      (⌊(i : ℚ) * (Rs / Rt)⌋).toNat < samples.length ∧
      0 ≤ Int.fract ((i : ℚ) * (Rs / Rt)) ∧
      Int.fract ((i : ℚ) * (Rs / Rt)) < 1) := by
  have hr : 0 < Rs / Rt := div_pos hs ht
  constructor
  · intro y hy
    by_cases h : Rs = Rt
    · rw [resample, if_pos h] at hy
      exact hb y hy
    · rw [resample_eq_of_ne _ _ _ h] at hy
      obtain ⟨i, hi, rfl⟩ := List.mem_map.mp hy
      exact resampleAt_bounds _ _ _ hb
  · intro i hi
    refine ⟨?_, Int.fract_nonneg _, Int.fract_lt_one _⟩
    by_cases h : Rs = Rt
    · rw [resample, if_pos h] at hi
      have h1 : Rs / Rt = 1 := by
        rw [h]
        field_simp
      rw [h1, mul_one, Int.floor_natCast]
      omega
    · rw [resample_eq_of_ne _ _ _ h, List.length_map,
        List.length_range] at hi
      obtain ⟨hlt, hnn⟩ := floor_srcIndex_lt hr hi
      omega

/-- C9 witness: the bounds part of resample_output_bounded applied at the
concrete input [0, 1] with source rate 1 and target rate 2. -/
theorem resample_bounded_witness :
    (0:ℚ) < 1 ∧ (0:ℚ) < 2 ∧
      ∀ y ∈ resample [0, 1] 1 2, -1 ≤ y ∧ y ≤ 1 :=
  ⟨one_pos, two_pos,
    (resample_output_bounded [0, 1] 1 2 one_pos two_pos (by decide)).1⟩

/-- C4 counterexample: fragments delivered in arrival order with start times
5, 1, 3 are handed to the transcript view with start times in arrival order
5, 1, 3, not in the sorted order 1, 3, 5 the claim states. -/
theorem transcript_order_counterexample :
    (liveSnapshot
        [⟨"a", "SPEAKER_A", "x", 5, 6, 1⟩,
         ⟨"b", "SPEAKER_A", "y", 1, 2, 1⟩,
         ⟨"c", "SPEAKER_A", "z", 3, 4, 1⟩]).map TranscriptSegment.start_time =
      [5, 1, 3] ∧ ([5, 1, 3] : List ℚ) ≠ [1, 3, 5] := by
  constructor
  · rfl
  · simp only [ne_eq, List.cons.injEq]
    norm_num

theorem liveSnapshot_foldl (acc arrivals : List TranscriptSegment) :
    arrivals.foldl handleTranscriptUpdate acc = acc ++ arrivals := by
  induction arrivals generalizing acc with
  | nil => simp
  | cons a rest ih =>
      rw [List.foldl_cons, handleTranscriptUpdate, ih]
      simp

/-- C4 (amended): the aggregator is append-only and the snapshot handed to
the transcript view preserves arrival order exactly (it is sorted by start
time only when fragments already arrive in start-time order); in particular
fragments delivered in arrival order with start times 5, 1, 3 yield a
snapshot with start times 5, 1, 3. -/
theorem transcript_arrival_order (arrivals : List TranscriptSegment) :
    liveSnapshot arrivals = arrivals := by
  rw [liveSnapshot, liveSnapshot_foldl]
  simp

/-- Invariant tying the pause flag to the duration timer: the ref mirrors the
isPaused state, and while paused the duration interval is cleared. -/
def PausedInv (s : RecorderState) : Prop :=
  s.isPausedRef = s.isPaused ∧
  (s.isPausedRef = true → s.durationTimerActive = false)

theorem pausedInv_init (r : ℚ) : PausedInv (initRecorder r) :=
  ⟨rfl, by simp [initRecorder]⟩

theorem flushBuffered_fields (s : RecorderState) :
    (flushBuffered s).isPausedRef = s.isPausedRef ∧
    (flushBuffered s).isPaused = s.isPaused ∧
    (flushBuffered s).durationTimerActive = s.durationTimerActive ∧
    (flushBuffered s).duration = s.duration ∧
    (flushBuffered s).wsOpen = s.wsOpen := by
  rw [flushBuffered]
  split_ifs <;> simp

theorem pausedInv_step (s : RecorderState) (e : RecEvent)
    (h : PausedInv s) : PausedInv (recStep s e) := by
  obtain ⟨h1, h2⟩ := h
  cases e with
  | audioProcess samples =>
      rw [recStep]
      split_ifs <;> exact ⟨h1, h2⟩
  | flushTick =>
      rw [recStep]
      split_ifs with hb
      · obtain ⟨f1, f2, f3, _, _⟩ := flushBuffered_fields s
        refine ⟨by rw [f1, f2, h1], ?_⟩
        intro hh
        rw [f1] at hh
        rw [f3]
        exact h2 hh
      · exact ⟨h1, h2⟩
  | durationTick =>
      rw [recStep]
      split_ifs <;> exact ⟨h1, h2⟩
  | togglePause =>
      rw [recStep]
      split_ifs <;> exact ⟨rfl, by simp⟩
  | audioWsClose => exact ⟨h1, h2⟩
  | stopRecording => exact ⟨rfl, fun _ => rfl⟩

theorem pausedInv_run (s : RecorderState) (h : PausedInv s)
    (tr : List RecEvent) : PausedInv (runRec s tr) := by
  induction tr generalizing s with
  | nil => exact h
  | cons e rest ih => exact ih _ (pausedInv_step s e h)

theorem pausedInv_reachable {s : RecorderState} (h : ReachableRec s) :
    PausedInv s := by
  obtain ⟨r, tr, rfl⟩ := h
  exact pausedInv_run _ (pausedInv_init r) tr

/-- C5: while the session is paused, sample arrays delivered by the capture
callback are discarded (the callback is a complete no-op, so the samples
never enter the buffer and every continuation of the session is exactly as
if they had never arrived, hence they appear in no later flushed chunk), and
the duration clock does not advance on a duration tick; on resume the
duration continues unchanged from where it left off. -/
theorem pause_discards_and_freezes (s : RecorderState)
    (hs : ReachableRec s) (hp : s.isPausedRef = true) :
    (∀ samples : List ℚ, recStep s (.audioProcess samples) = s) ∧
    (∀ samples : List ℚ, ∀ tr : List RecEvent,
      runRec (recStep s (.audioProcess samples)) tr = runRec s tr) ∧
    (recStep s .durationTick).duration = s.duration ∧
    (recStep s .togglePause).duration = s.duration := by
  have hnoop : ∀ samples : List ℚ, recStep s (.audioProcess samples) = s := by
    intro samples
    rw [recStep]
    simp [hp]
  have hta := (pausedInv_reachable hs).2 hp
  refine ⟨hnoop, fun samples tr => by rw [hnoop], ?_, ?_⟩
  · rw [recStep]
    simp [hta]
  · rw [recStep]
    split_ifs <;> rfl

/-- C5 witness: pause_discards_and_freezes applied to the reachable state
obtained by toggling pause once after recording start. -/
theorem pause_discards_witness :
    (runRec (initRecorder 48000) [.togglePause]).isPausedRef = true ∧
    (recStep (runRec (initRecorder 48000) [.togglePause])
        .durationTick).duration =
      (runRec (initRecorder 48000) [.togglePause]).duration :=
  ⟨rfl,
    (pause_discards_and_freezes _ ⟨48000, [.togglePause], rfl⟩ rfl).2.2.1⟩

theorem closedChannel_step (s : RecorderState) (e : RecEvent)
    (h : s.wsOpen = false) :
    (recStep s e).sentChunks = s.sentChunks ∧
    (recStep s e).wsOpen = false := by
  have hflush : flushBuffered s = s := by
    rw [flushBuffered, if_pos (Or.inl (by simp [h]))]
  cases e with
  | audioProcess samples =>
      rw [recStep]
      split_ifs <;> exact ⟨rfl, h⟩
  | flushTick =>
      rw [recStep]
      split_ifs with hb
      · rw [hflush]
        exact ⟨rfl, h⟩
      · exact ⟨rfl, h⟩
  | durationTick =>
      rw [recStep]
      split_ifs <;> exact ⟨rfl, h⟩
  | togglePause =>
      rw [recStep]
      split_ifs <;> exact ⟨rfl, h⟩
  | audioWsClose => exact ⟨rfl, rfl⟩
  | stopRecording =>
      rw [recStep]
      simp [hflush]

theorem closedChannel_run (s : RecorderState) (h : s.wsOpen = false)
    (tr : List RecEvent) :
    (runRec s tr).sentChunks = s.sentChunks ∧
    (runRec s tr).wsOpen = false := by
  induction tr generalizing s with
  | nil => exact ⟨rfl, h⟩
  | cons e rest ih =>
      obtain ⟨h1, h2⟩ := closedChannel_step s e h
      obtain ⟨h3, h4⟩ := ih (recStep s e) h2
      exact ⟨h3.trans h1, h4⟩

/-- C6: at every flush tick at which the audio channel is not open, the chunk
for that tick is dropped with no retry: nothing is sent at that tick, and
since the audio socket never returns to open within a session, nothing is
sent at any later point of the session either, so the samples buffered at
that tick never appear in any sent chunk. -/
theorem closed_channel_drops (s : RecorderState) (h : s.wsOpen = false)
    (tr : List RecEvent) :
    (recStep s .flushTick).sentChunks = s.sentChunks ∧
    (runRec s tr).sentChunks = s.sentChunks ∧
    (runRec s tr).wsOpen = false :=
  ⟨(closedChannel_step s .flushTick h).1,
   (closedChannel_run s h tr).1, (closedChannel_run s h tr).2⟩

/-- C6 witness: closed_channel_drops applied to the reachable state obtained
by closing the audio socket right after recording start, with a concrete
subsequent trace containing a capture callback, a flush tick and the final
stop. -/
theorem closed_channel_witness :
    (recStep (initRecorder 48000) .audioWsClose).wsOpen = false ∧
    (runRec (recStep (initRecorder 48000) .audioWsClose)
        [.audioProcess [0], .flushTick, .stopRecording]).sentChunks =
      (recStep (initRecorder 48000) .audioWsClose).sentChunks :=
  ⟨rfl, (closed_channel_drops _ rfl _).2.1⟩

/-- C7: the reconnect-on-close logic of connectTranscriptWebSocket is dead
code: the onclose handler tests the isRecording value captured by its closure
when the socket was created, and startRecording creates the socket before
isRecording is ever set true; so after the start sequence completes (the
current isRecording state is true) and the transcript channel then closes,
the number of scheduled reconnect attempts is 0, not the exactly-one per
closure that the claim (and the source comment) states. -/
theorem transcript_reconnect_bug :
    (runTc tcInit startThenClose).isRecordingState = true ∧
    (runTc tcInit startThenClose).reconnectsScheduled = 0 :=
  ⟨rfl, rfl⟩

/-- C8 counterexample: stopRecording flushes the remaining buffered samples
before it disconnects the processor, so the order asserted by the claim
(stop accepting new buffer input strictly before flushing) fails on the stop
sequence of the source in the normal stop scenario (channel open, buffer
non-empty). -/
theorem stop_order_counterexample :
    ¬ claimedStopOrder (stopRecordingActions true true) := by
  unfold claimedStopOrder
  decide

/-- C8 (amended): stopping the session performs, in order: flush any
remaining buffered samples as a final chunk, stop accepting new buffer
input, send the end-of-stream control message on the audio channel before
closing it, close the transcript channel, release the capture device, and
only then reach the terminal closed state; reaching the terminal state is
the last action for every channel and buffer condition. -/
theorem stop_sequence_order :
    ((stopRecordingActions true true).indexOf .flushChunk <
      (stopRecordingActions true true).indexOf .disconnectProcessor ∧
     (stopRecordingActions true true).indexOf .disconnectProcessor <
      (stopRecordingActions true true).indexOf .sendEndMessage ∧
     (stopRecordingActions true true).indexOf .sendEndMessage <
      (stopRecordingActions true true).indexOf .closeAudioChannel ∧
     (stopRecordingActions true true).indexOf .closeAudioChannel <
      (stopRecordingActions true true).indexOf .closeTranscriptChannel ∧
     (stopRecordingActions true true).indexOf .closeTranscriptChannel <
      (stopRecordingActions true true).indexOf .releaseCaptureDevice ∧
     (stopRecordingActions true true).indexOf .releaseCaptureDevice <
      (stopRecordingActions true true).indexOf .enterClosed) ∧
    (∀ wOpen bufNonempty : Bool,
      (stopRecordingActions wOpen bufNonempty).getLast? =
        some .enterClosed) := by
  constructor
  · decide
  · intro wOpen bufNonempty
    cases wOpen <;> cases bufNonempty <;> rfl
